import Mathlib

/-
  Shallow embedding of src/manager.py (CopyCache).

  Conventions:
  - Python dicts and OrderedDicts are association lists in insertion order
    with unique keys; assignment d[k] = v updates the value in place when k
    is present (keeping its position) and appends otherwise.
  - Keys (pynput key objects / key names) are modelled as String.
  - External side effects (system clipboard reads and writes, keystroke
    simulation, printing) are modelled as returned values or recorded lists.
-/

/-- KeyState enum from manager.py lines 17-19. -/
inductive KeyState where
  | pressed
  | released
deriving DecidableEq

/-- Lookup in a Python dict modelled as an association list: the value at the
first matching key, none when absent. -/
def odLookup {α β : Type} [DecidableEq α] (l : List (α × β)) (k : α) : Option β :=
  match l with
  | [] => none
  | (k1, v1) :: rest => if k1 = k then some v1 else odLookup rest k

/-- Assignment d[k] = v on a Python dict or OrderedDict: updates the value in
place when the key is present (the entry keeps its position), appends a new
entry otherwise. -/
def odSet {α β : Type} [DecidableEq α] (l : List (α × β)) (k : α) (v : β) : List (α × β) :=
  match l with
  | [] => [(k, v)]
  | (k1, v1) :: rest => if k1 = k then (k1, v) :: rest else (k1, v1) :: odSet rest k v

/-- Clipboard from manager.py lines 88-140: a bounded store. buffer is the
Python dict self.buffer in insertion order; max_size is self.max_size. -/
structure Clipboard where
  max_size : Nat
  buffer : List (Nat × String)
deriving DecidableEq

/-- Outcome of Clipboard.copy, observed in the source through the printed
status line (full-buffer message vs success message). -/
inductive CopyResult where
  | ok
  | bufferFull
deriving DecidableEq

/-- Outcome of Clipboard.paste: ok carries the text delivered to the system
clipboard; emptySlot is the empty-cell message. -/
inductive PasteResult where
  | ok (text : String)
  | emptySlot
deriving DecidableEq

/-- Clipboard.copy, manager.py lines 100-112. The Python method reads the text
from the system clipboard after the capacity check; the argument t models that
external input. Capacity is checked by slot count before anything else. -/
def Clipboard.copy (s : Clipboard) (i : Nat) (t : String) : CopyResult × Clipboard :=
  if s.buffer.length ≥ s.max_size then
    (CopyResult.bufferFull, s)
  else
    (CopyResult.ok, { s with buffer := odSet s.buffer i t })

/-- Clipboard.paste, manager.py lines 114-126. When the cell is occupied the
stored text is written to the system clipboard (modelled as the returned ok
value) and a paste keystroke is simulated; the buffer is never modified. -/
def Clipboard.paste (s : Clipboard) (i : Nat) : PasteResult × Clipboard :=
  match odLookup s.buffer i with
  | some t => (PasteResult.ok t, s)
  | none => (PasteResult.emptySlot, s)

/-- Clipboard.clear, manager.py lines 128-131: self.buffer.clear(). -/
def Clipboard.clear (s : Clipboard) : Clipboard :=
  { s with buffer := [] }

/-- Clipboard.list, manager.py lines 133-140: prints the (index, content)
pairs in dict iteration order, which is insertion order; the printed sequence
is modelled as the returned list. Prints nothing but a notice when empty. -/
def Clipboard.list (s : Clipboard) : List (Nat × String) :=
  s.buffer

/-- One ClipboardStore operation, for stating invariants over operation
sequences. -/
inductive ClipOp where
  | copyOp (i : Nat) (t : String)
  | pasteOp (i : Nat)
  | clearOp
  | listOp
deriving DecidableEq

/-- State effect of one operation: paste and list never mutate the store. -/
def applyOp (s : Clipboard) (op : ClipOp) : Clipboard :=
  match op with
  | ClipOp.copyOp i t => (s.copy i t).2
  | ClipOp.pasteOp i => (s.paste i).2
  | ClipOp.clearOp => s.clear
  | ClipOp.listOp => s

/-- Runs a sequence of store operations from a starting state. -/
def runOps (s : Clipboard) (ops : List ClipOp) : Clipboard :=
  ops.foldl applyOp s

/-- A freshly constructed Clipboard (manager.py lines 89-98): empty buffer. -/
def initClipboard (m : Nat) : Clipboard :=
  { max_size := m, buffer := [] }

/-- Store obtained from a fresh capacity-5 clipboard by copying into slot 2
and then into slot 1, mirroring concrete scenario ordering. -/
def listCounterStore : Clipboard :=
  ((initClipboard 5).copy 2 "b").2.copy 1 "a" |>.2

/-- KeyInterceptor state, manager.py lines 251-306. pressed models the
pressed_keys set, combination the OrderedDict self.combination. reported
records, per finalization, the combination value printed at the start of
finalize_combination; callbackArgs records, per finalization, the value the
awaited callback receives. In the source get_key_combination returns
self.combination itself (no copy), and finalize_combination clears that same
object before awaiting the callback, so the callback sees the cleared dict. -/
structure KeyInterceptor where
  pressed : List String
  combination : List (String × KeyState)
  reported : List (List (String × KeyState))
  callbackArgs : List (List (String × KeyState))
deriving DecidableEq

/-- A freshly constructed KeyInterceptor: empty pressed set, empty open
combination, no finalizations yet. -/
def KeyInterceptor.init : KeyInterceptor :=
  { pressed := [], combination := [], reported := [], callbackArgs := [] }

/-- KeyInterceptor.finalize_combination, manager.py lines 288-298: reads the
current combination (an alias, not a snapshot), prints it, clears the
OrderedDict in place, then awaits the callback on the same object, which is
empty by that point. -/
def KeyInterceptor.finalize_combination (st : KeyInterceptor) : KeyInterceptor :=
  let combo := st.combination
  let st1 := { st with reported := st.reported ++ [combo] }
  let st2 := { st1 with combination := [] }
  { st2 with callbackArgs := st2.callbackArgs ++ [st2.combination] }

/-- KeyInterceptor.intercept_on_press, manager.py lines 262-272: a key already
in the pressed set is ignored; otherwise it is added and the combination entry
for the key is set to a pressed state (in place when the key already has an
entry from earlier in the open combination). -/
def KeyInterceptor.intercept_on_press (st : KeyInterceptor) (k : String) : KeyInterceptor :=
  if k ∈ st.pressed then st
  else
    { st with
      pressed := st.pressed ++ [k],
      combination := odSet st.combination k KeyState.pressed }

/-- KeyInterceptor.intercept_on_release, manager.py lines 274-286: a key not
in the pressed set is ignored; otherwise it is removed, the combination entry
for the key is overwritten with a released state, and when the pressed set
becomes empty the combination is finalized. -/
def KeyInterceptor.intercept_on_release (st : KeyInterceptor) (k : String) : KeyInterceptor :=
  if k ∈ st.pressed then
    let st1 := { st with
      pressed := st.pressed.erase k,
      combination := odSet st.combination k KeyState.released }
    if st1.pressed = [] then st1.finalize_combination else st1
  else st

/-- Iteration core of HotkeyComparator.is_subset, manager.py lines 322-340.
sub is the whole subset dict (consulted by the lookup subset[key]); rem is
what remains of the iterator over subset.items(). For each superset item in
order the loop pulls one item from the iterator (an exhausted iterator yields
the (None, None) default, whose key never equals a real key); on a match it
pulls one further item, returning true when that pull hits StopIteration, and
otherwise discards it. Python compares the HotkeyState values by object
identity; the model compares the recorded key states structurally, which is
the generous reading. -/
def isSubsetAux (sub rem sup : List (String × KeyState)) : Bool :=
  match sup with
  | [] => false
  | (key, value) :: supRest =>
    match rem with
    | [] => isSubsetAux sub [] supRest
    | (k, _) :: rest =>
      if key = k ∧ odLookup sub key = some value then
        match rest with
        | [] => true
        | _ :: restTail => isSubsetAux sub restTail supRest
      else
        isSubsetAux sub rest supRest

/-- HotkeyComparator.is_subset, manager.py lines 322-340, with the iterator
over subset.items() made explicit. -/
def HotkeyComparator.is_subset (subset superset : List (String × KeyState)) : Bool :=
  isSubsetAux subset subset superset

/-- Trigger names used on the state machine. The source uses the string
go_to_{name} for the transition added per command and the string back_to_wait
for the return transition; the two shapes can never collide, so the tag is
modelled as an inductive type with the command name carried by goTo. -/
inductive MTrig where
  | goTo (name : String)
  | backToWait
deriving DecidableEq

/-- One registered transition of the Machine built in MenuState.add_command:
trigger, source state and destination state. The after callback (the command
action) is a side effect not needed for the state claims. -/
structure MTransition where
  trigger : MTrig
  source : String
  dest : String
deriving DecidableEq

/-- MenuState, manager.py lines 240-249: the transitions Machine with its
registered states and transitions. The initial state is wait. -/
structure MenuState where
  states : List String
  transitions : List MTransition
deriving DecidableEq

/-- MenuState.__init__, manager.py lines 241-243: only the wait state, no
transitions. -/
def MenuState.init : MenuState :=
  { states := ["wait"], transitions := [] }

/-- MenuCommand, manager.py lines 189-194, without the action callable. -/
structure MenuCommand where
  key : String
  name : String
  description : String
deriving DecidableEq

/-- MenuState.add_command, manager.py lines 245-249: registers the command
name as a state, a go_to transition from wait to it, and a back_to_wait
transition from it to wait. -/
def MenuState.add_command (m : MenuState) (c : MenuCommand) : MenuState :=
  { states := m.states ++ [c.name],
    transitions := m.transitions ++
      [ { trigger := MTrig.goTo c.name, source := "wait", dest := c.name },
        { trigger := MTrig.backToWait, source := c.name, dest := "wait" } ] }

/-- The command table of CommandManager, manager.py lines 345-352. -/
def commands : List MenuCommand :=
  [ { key := "s", name := "settings", description := "Open settings" },
    { key := "c", name := "copy", description := "Copy text" },
    { key := "p", name := "paste", description := "Paste text" },
    { key := "h", name := "help", description := "Open help" },
    { key := "l", name := "list", description := "Show stored items" },
    { key := "r", name := "clear", description := "Clear the buffer" } ]

/-- The machine after CommandManager.add_commands_to_menu, manager.py lines
355-357: every command added to the fresh MenuState in table order. -/
def menuMachine : MenuState :=
  commands.foldl MenuState.add_command MenuState.init

/-- The registered command names, in registration order. -/
def commandNames : List String :=
  commands.map (fun c => c.name)

/-- Outcome of firing a trigger: either the transition fires and the machine
moves to the destination, or no registered transition matches the current
state and the event is rejected (the transitions library raises MachineError;
either way no transition occurs and no handler runs). -/
inductive TriggerResult where
  | accepted (dest : String)
  | rejected
deriving DecidableEq

/-- Firing a trigger t on machine m in current state s: the first registered
transition with this trigger and source fires; with none, the event is
rejected. -/
def fireTrigger (m : MenuState) (t : MTrig) (s : String) : TriggerResult :=
  match m.transitions.find? (fun tr => decide (tr.trigger = t ∧ tr.source = s)) with
  | some tr => TriggerResult.accepted tr.dest
  | none => TriggerResult.rejected

/-- The state after firing a trigger: the destination when accepted, the
unchanged current state when rejected. -/
def nextState (m : MenuState) (t : MTrig) (s : String) : String :=
  match fireTrigger m t s with
  | TriggerResult.accepted d => d
  | TriggerResult.rejected => s

/-- The state after firing a sequence of go_to triggers, one per listed
command name. -/
def runTriggers (m : MenuState) (cs : List String) (s : String) : String :=
  cs.foldl (fun st c => nextState m (MTrig.goTo c) st) s

-- Helper lemmas about the dict model and the operation semantics.

theorem odLookup_odSet_self {α β : Type} [DecidableEq α] (l : List (α × β)) (k : α) (v : β) :
    odLookup (odSet l k v) k = some v := by
  induction l with
  | nil => simp [odSet, odLookup]
  | cons hd tl ih =>
    obtain ⟨k1, v1⟩ := hd
    by_cases h : k1 = k
    · simp [odSet, odLookup, h]
    · simp [odSet, odLookup, h, ih]

theorem odSet_of_lookup_none {α β : Type} [DecidableEq α] (l : List (α × β)) (k : α) (v : β)
    (h : odLookup l k = none) : odSet l k v = l ++ [(k, v)] := by
  induction l with
  | nil => simp [odSet]
  | cons hd tl ih =>
    obtain ⟨k1, v1⟩ := hd
    by_cases hk : k1 = k
    · simp [odLookup, hk] at h
    · simp [odLookup, hk] at h
      simp [odSet, hk, ih h]

theorem odSet_length_le {α β : Type} [DecidableEq α] (l : List (α × β)) (k : α) (v : β) :
    (odSet l k v).length ≤ l.length + 1 := by
  induction l with
  | nil => simp [odSet]
  | cons hd tl ih =>
    obtain ⟨k1, v1⟩ := hd
    by_cases h : k1 = k
    · simp [odSet, h]
    · simp only [odSet, if_neg h, List.length_cons]
      omega

theorem applyOp_max_size (s : Clipboard) (op : ClipOp) :
    (applyOp s op).max_size = s.max_size := by
  cases op with
  | copyOp i t =>
    simp only [applyOp, Clipboard.copy]
    split <;> rfl
  | pasteOp i =>
    simp only [applyOp, Clipboard.paste]
    cases odLookup s.buffer i <;> rfl
  | clearOp => rfl
  | listOp => rfl

theorem applyOp_preserves_bound (s : Clipboard) (op : ClipOp)
    (h : s.buffer.length ≤ s.max_size) :
    (applyOp s op).buffer.length ≤ (applyOp s op).max_size := by
  rw [applyOp_max_size]
  cases op with
  | copyOp i t =>
    simp only [applyOp, Clipboard.copy]
    split
    · exact h
    · rename_i hfull
      have hlt : s.buffer.length < s.max_size := by
        simpa using Nat.lt_of_not_le (by simpa [ge_iff_le] using hfull)
      calc (odSet s.buffer i t).length ≤ s.buffer.length + 1 := odSet_length_le _ _ _
        _ ≤ s.max_size := hlt
  | pasteOp i =>
    simp only [applyOp, Clipboard.paste]
    cases odLookup s.buffer i <;> exact h
  | clearOp => simp [applyOp, Clipboard.clear]
  | listOp => exact h

theorem runOps_preserves_bound (ops : List ClipOp) (s : Clipboard)
    (h : s.buffer.length ≤ s.max_size) :
    (runOps s ops).buffer.length ≤ (runOps s ops).max_size := by
  induction ops generalizing s with
  | nil => exact h
  | cons op ops ih =>
    simp only [runOps, List.foldl_cons]
    exact ih (applyOp s op) (applyOp_preserves_bound s op h)

theorem menuMachine_goTo_source :
    ∀ tr ∈ menuMachine.transitions, ∀ n, tr.trigger = MTrig.goTo n → tr.source = "wait" := by
  intro tr htr n hn
  have hts : menuMachine.transitions =
      [ { trigger := MTrig.goTo "settings", source := "wait", dest := "settings" },
        { trigger := MTrig.backToWait, source := "settings", dest := "wait" },
        { trigger := MTrig.goTo "copy", source := "wait", dest := "copy" },
        { trigger := MTrig.backToWait, source := "copy", dest := "wait" },
        { trigger := MTrig.goTo "paste", source := "wait", dest := "paste" },
        { trigger := MTrig.backToWait, source := "paste", dest := "wait" },
        { trigger := MTrig.goTo "help", source := "wait", dest := "help" },
        { trigger := MTrig.backToWait, source := "help", dest := "wait" },
        { trigger := MTrig.goTo "list", source := "wait", dest := "list" },
        { trigger := MTrig.backToWait, source := "list", dest := "wait" },
        { trigger := MTrig.goTo "clear", source := "wait", dest := "clear" },
        { trigger := MTrig.backToWait, source := "clear", dest := "wait" } ] := by
    rfl
  rw [hts] at htr
  fin_cases htr <;> simp_all

theorem fireTrigger_goTo_nonwait (s c : String) (hs : s ≠ "wait") :
    fireTrigger menuMachine (MTrig.goTo c) s = TriggerResult.rejected := by
  unfold fireTrigger
  have hfind : menuMachine.transitions.find?
      (fun tr => decide (tr.trigger = MTrig.goTo c ∧ tr.source = s)) = none := by
    rw [List.find?_eq_none]
    intro tr htr
    simp only [decide_eq_true_eq, not_and]
    intro h1 h2
    have hw : tr.source = "wait" := menuMachine_goTo_source tr htr c h1
    exact hs (h2.symm.trans hw)
  rw [hfind]

theorem nextState_goTo_nonwait (s c : String) (hs : s ≠ "wait") :
    nextState menuMachine (MTrig.goTo c) s = s := by
  unfold nextState
  rw [fireTrigger_goTo_nonwait s c hs]

theorem runTriggers_nonwait (s : String) (hs : s ≠ "wait") (cs : List String) :
    runTriggers menuMachine cs s = s := by
  induction cs with
  | nil => rfl
  | cons c cs ih =>
    unfold runTriggers
    rw [List.foldl_cons, nextState_goTo_nonwait s c hs]
    exact ih

-- Claim theorems.

/-- Counterexample for C1: pressing then releasing the single key a finalizes
a combination that is the single entry [a: released], not the claimed
two-entry sequence [a: pressed, a: released]; moreover the callback receives
the empty combination, not the finalized one. -/
theorem press_release_counterexample :
    (KeyInterceptor.init.intercept_on_press "a" |>.intercept_on_release "a").reported
      ≠ [[("a", KeyState.pressed), ("a", KeyState.released)]] ∧
    (KeyInterceptor.init.intercept_on_press "a" |>.intercept_on_release "a").callbackArgs
      ≠ [[("a", KeyState.pressed), ("a", KeyState.released)]] := by
  decide

/-- C1 amended: for every key A, pressing then releasing A on a fresh tracker
finalizes exactly once; the finalized combination, as captured when
finalization starts, is the single entry [A: released] (the entry created at
press keeps its position but its state is overwritten in place); the callback
is invoked exactly once and receives the empty combination, because the
OrderedDict is cleared before the callback is awaited on the same object;
afterwards the pressed set and the open combination are empty. -/
theorem press_release_single_entry (A : String) :
    (KeyInterceptor.init.intercept_on_press A |>.intercept_on_release A).reported
      = [[(A, KeyState.released)]] ∧
    (KeyInterceptor.init.intercept_on_press A |>.intercept_on_release A).callbackArgs
      = [[]] ∧
    (KeyInterceptor.init.intercept_on_press A |>.intercept_on_release A).pressed = [] ∧
    (KeyInterceptor.init.intercept_on_press A |>.intercept_on_release A).combination = [] := by
  simp [KeyInterceptor.init, KeyInterceptor.intercept_on_press,
    KeyInterceptor.intercept_on_release, KeyInterceptor.finalize_combination,
    odSet, List.erase_cons_head]

/-- C2: on any store whose occupied-slot count is at least max_size, copy
fails with the buffer-full outcome and returns the store completely
unchanged, for every index (occupied or not) and every text; capacity is
decided by slot count alone. -/
theorem copy_full_rejected (s : Clipboard) (i : Nat) (t : String)
    (h : s.max_size ≤ s.buffer.length) :
    s.copy i t = (CopyResult.bufferFull, s) := by
  simp [Clipboard.copy, ge_iff_le, h]

/-- Witness for C2: a store with max_size 2 and both slots occupied rejects a
copy aimed at the already occupied index 1 and is left unchanged. -/
theorem copy_full_rejected_witness :
    Clipboard.copy ⟨ 2, [(1, "a"), (2, "b")] ⟩ 1 "z" =
      (CopyResult.bufferFull, ⟨ 2, [(1, "a"), (2, "b")] ⟩) :=
  copy_full_rejected ⟨ 2, [(1, "a"), (2, "b")] ⟩ 1 "z" (by decide)

/-- C3: on any store with strictly fewer occupied slots than max_size,
copy i t succeeds and a following paste i succeeds returning exactly t. -/
theorem copy_then_paste (s : Clipboard) (i : Nat) (t : String)
    (h : s.buffer.length < s.max_size) :
    (s.copy i t).1 = CopyResult.ok ∧
    ((s.copy i t).2.paste i).1 = PasteResult.ok t := by
  have hnot : ¬ s.buffer.length ≥ s.max_size := by omega
  constructor
  · simp [Clipboard.copy, hnot]
  · simp [Clipboard.copy, hnot, Clipboard.paste, odLookup_odSet_self]

/-- Witness for C3: copying "hello" into slot 3 of an empty store of
capacity 5 and pasting slot 3 yields "hello". -/
theorem copy_then_paste_witness :
    (Clipboard.copy (initClipboard 5) 3 "hello").1 = CopyResult.ok ∧
    ((Clipboard.copy (initClipboard 5) 3 "hello").2.paste 3).1 = PasteResult.ok "hello" :=
  copy_then_paste (initClipboard 5) 3 "hello" (by decide)

/-- C4: evaluation of is_subset at the specification examples. On the claimed
positive example, subset [ctrl: pressed, c: pressed] against the four-entry
superset, is_subset returns false, contradicting the claim; it even returns
false for a two-entry combination against itself, contradicting the methods
own stated purpose, because after every successful match the loop consumes
and discards an extra subset entry. The claimed negative example does return
false. -/
theorem is_subset_evaluations :
    HotkeyComparator.is_subset
      [("ctrl", KeyState.pressed), ("c", KeyState.pressed)]
      [("ctrl", KeyState.pressed), ("c", KeyState.pressed),
       ("c", KeyState.released), ("ctrl", KeyState.released)] = false ∧
    HotkeyComparator.is_subset
      [("ctrl", KeyState.pressed), ("c", KeyState.pressed)]
      [("ctrl", KeyState.pressed), ("c", KeyState.pressed)] = false ∧
    HotkeyComparator.is_subset
      [("c", KeyState.pressed), ("ctrl", KeyState.pressed)]
      [("ctrl", KeyState.pressed), ("c", KeyState.pressed)] = false := by
  decide

/-- C5: for every command name and every non-wait current state, firing the
go_to trigger is rejected and leaves the current state unchanged, and any
further sequence of go_to triggers also leaves it unchanged until
back_to_wait is fired. -/
theorem trigger_nonidle_rejected (s c : String) (hs : s ≠ "wait") (hc : c ∈ commandNames) :
    fireTrigger menuMachine (MTrig.goTo c) s = TriggerResult.rejected ∧
    nextState menuMachine (MTrig.goTo c) s = s ∧
    (∀ cs : List String, runTriggers menuMachine cs s = s) :=
  ⟨ fireTrigger_goTo_nonwait s c hs, nextState_goTo_nonwait s c hs,
    runTriggers_nonwait s hs ⟩

/-- Witness for C5: in state copy, firing go_to copy is rejected and a
further trigger sequence leaves the state at copy. -/
theorem trigger_nonidle_rejected_witness :
    fireTrigger menuMachine (MTrig.goTo "copy") "copy" = TriggerResult.rejected ∧
    runTriggers menuMachine ["copy", "paste"] "copy" = "copy" :=
  ⟨ (trigger_nonidle_rejected "copy" "copy" (by decide) (by decide)).1,
    (trigger_nonidle_rejected "copy" "copy" (by decide) (by decide)).2.2 ["copy", "paste"] ⟩

/-- Counterexample for C6: in the wait state itself, firing back_to_wait is
rejected, because every registered back_to_wait transition has a command
state as its source; returnToIdle is therefore not legal from Idle. -/
theorem returnToIdle_from_idle_rejected :
    fireTrigger menuMachine MTrig.backToWait "wait" = TriggerResult.rejected := by
  decide

/-- C6 amended: from every state of the machine, firing back_to_wait leaves
the machine in the wait state; it is an accepted transition with destination
wait from every command state, and from wait itself it is rejected while the
state stays wait. -/
theorem returnToIdle_yields_wait (s : String) (hs : s ∈ menuMachine.states) :
    nextState menuMachine MTrig.backToWait s = "wait" ∧
    (s ≠ "wait" → fireTrigger menuMachine MTrig.backToWait s = TriggerResult.accepted "wait") := by
  have hstates : menuMachine.states =
      ["wait", "settings", "copy", "paste", "help", "list", "clear"] := by rfl
  rw [hstates] at hs
  fin_cases hs <;> exact ⟨ by decide, fun h => by first | decide | exact absurd rfl h ⟩

/-- Witness for C6 amended: from the copy state, back_to_wait is accepted
with destination wait, and the resulting state is wait. -/
theorem returnToIdle_yields_wait_witness :
    nextState menuMachine MTrig.backToWait "copy" = "wait" ∧
    fireTrigger menuMachine MTrig.backToWait "copy" = TriggerResult.accepted "wait" :=
  ⟨ (returnToIdle_yields_wait "copy" (by decide)).1,
    (returnToIdle_yields_wait "copy" (by decide)).2 (by decide) ⟩

/-- C7: paste i fails with the empty-slot outcome exactly when i is not an
occupied slot, returns the stored text when i is occupied, and never changes
the store. -/
theorem paste_read_only (s : Clipboard) (i : Nat) :
    ((s.paste i).1 = PasteResult.emptySlot ↔ odLookup s.buffer i = none) ∧
    (∀ t, odLookup s.buffer i = some t → (s.paste i).1 = PasteResult.ok t) ∧
    (s.paste i).2 = s := by
  cases h : odLookup s.buffer i <;> simp [Clipboard.paste, h]

/-- Witness for C7: on the store holding only slot 5, paste 5 returns the
stored text and leaves the store unchanged, and paste 3 reports an empty
slot. -/
theorem paste_read_only_witness :
    ((Clipboard.paste ⟨ 5, [(5, "x")] ⟩ 5).1 = PasteResult.ok "x") ∧
    ((Clipboard.paste ⟨ 5, [(5, "x")] ⟩ 3).1 = PasteResult.emptySlot) ∧
    (Clipboard.paste ⟨ 5, [(5, "x")] ⟩ 5).2 = ⟨ 5, [(5, "x")] ⟩ :=
  ⟨ (paste_read_only ⟨ 5, [(5, "x")] ⟩ 5).2.1 "x" (by decide),
    (paste_read_only ⟨ 5, [(5, "x")] ⟩ 3).1.mpr (by decide),
    (paste_read_only ⟨ 5, [(5, "x")] ⟩ 5).2.2 ⟩

/-- Counterexample for C8: after copying into slot 2 and then slot 1, list
returns [(2, b), (1, a)], which is not in ascending index order, refuting
the sortedness part of the claim. -/
theorem list_not_sorted_counterexample :
    Clipboard.list listCounterStore = [(2, "b"), (1, "a")] ∧
    ¬ List.Chain' (fun p q : Nat × String => p.1 < q.1) (Clipboard.list listCounterStore) := by
  have h1 : Clipboard.list listCounterStore = [(2, "b"), (1, "a")] := by decide
  refine ⟨ h1, ?_ ⟩
  rw [h1]
  simp [List.chain'_cons]

/-- C8 amended: list returns the occupied (index, text) pairs in insertion
order (the order in which each index was first copied), its length equals the
occupied-slot count, it is empty on an empty store, and a successful copy to
a fresh index appends at the end of the listing. -/
theorem list_insertion_order (s : Clipboard) :
    (Clipboard.list s).length = s.buffer.length ∧
    (s.buffer = [] → Clipboard.list s = []) ∧
    (∀ i t, odLookup s.buffer i = none → s.buffer.length < s.max_size →
      Clipboard.list (s.copy i t).2 = Clipboard.list s ++ [(i, t)]) := by
  refine ⟨ rfl, fun h => by simp [Clipboard.list, h], fun i t hfree hroom => ?_ ⟩
  have hnot : ¬ s.buffer.length ≥ s.max_size := by omega
  simp [Clipboard.copy, hnot, Clipboard.list, odSet_of_lookup_none s.buffer i t hfree]

/-- Witness for C8 amended: on the two-slot store built by copying into slot 2
then slot 1, the listing has length 2 and copying "c" into the fresh slot 7
appends (7, c) at the end. -/
theorem list_insertion_order_witness :
    (Clipboard.list listCounterStore).length = listCounterStore.buffer.length ∧
    Clipboard.list (listCounterStore.copy 7 "c").2 =
      Clipboard.list listCounterStore ++ [(7, "c")] :=
  ⟨ (list_insertion_order listCounterStore).1,
    (list_insertion_order listCounterStore).2.2 7 "c" (by decide) (by decide) ⟩

/-- C9: the occupied-slot count never exceeds max_size: the bound holds on a
freshly constructed store and is preserved by every sequence of copy, paste,
clear and list operations from any store satisfying it. -/
theorem clipboard_size_invariant (m : Nat) (s : Clipboard) (ops : List ClipOp)
    (h : s.buffer.length ≤ s.max_size) :
    (initClipboard m).buffer.length ≤ (initClipboard m).max_size ∧
    (runOps s ops).buffer.length ≤ (runOps s ops).max_size :=
  ⟨ by simp [initClipboard], runOps_preserves_bound ops s h ⟩

/-- Witness for C9: starting from a capacity-2 store with one occupied slot,
running two copies (the second of which overflows) keeps the count within the
bound. -/
theorem clipboard_size_invariant_witness :
    (runOps ⟨ 2, [(1, "a")] ⟩ [ClipOp.copyOp 2 "b", ClipOp.copyOp 3 "c"]).buffer.length ≤
      (runOps ⟨ 2, [(1, "a")] ⟩ [ClipOp.copyOp 2 "b", ClipOp.copyOp 3 "c"]).max_size :=
  (clipboard_size_invariant 7 ⟨ 2, [(1, "a")] ⟩
    [ClipOp.copyOp 2 "b", ClipOp.copyOp 3 "c"] (by decide)).2

/-- C10: for every superset combination, including the empty one, is_subset
applied to an empty subset returns false: the exhausted iterator always
yields the (None, None) default, which never matches a real key. -/
theorem is_subset_empty_sub (sup : List (String × KeyState)) :
    HotkeyComparator.is_subset [] sup = false := by
  show isSubsetAux [] [] sup = false
  induction sup with
  | nil => rfl
  | cons e supRest ih =>
    obtain ⟨k, v⟩ := e
    simpa [isSubsetAux] using ih
